import Mathlib

/-!
Verification of the plaso `pfile` layer (src/lib/pfile.py): a shallow
embedding of the descriptor-driven virtual-file abstraction — the
filesystem handle cache, the per-format stream handlers (ZIP, GZIP,
BZ2, TAR), the `Stats` projection object and the recursive resolver
`OpenPFile` — together with theorems settling the specification's
claims about them.

Byte contents are modelled as `List Nat`; Python exceptions as an
explicit error type; the mutable handler/cache state as explicit state
passing.
-/

namespace PFile

/-- Python exceptions that the code in `pfile.py` raises or handles:
`IOError`, `KeyError` (raised by `zipfile.ZipFile.getinfo` and
`tarfile.TarFile.getmember` for a missing member), `RuntimeError`
(raised by the seek guards), `AttributeError` (raised by
`Stats.__getattr__`), `NotImplementedError` (tolerated by
`Bz2File.Open`) and `ValueError` (raised by `gzip.GzipFile.seek` for
an unsupported whence). -/
inductive PyErr where
  | ioError (msg : String)
  | keyError (msg : String)
  | runtimeError (msg : String)
  | attributeError (msg : String)
  | notImplError (msg : String)
  | valueError (msg : String)
  deriving DecidableEq, Repr

/-- Holds exactly for the `IOError` constructor. -/
def PyErr.isIOError : PyErr → Bool
  | .ioError _ => true
  | _ => false

/-- Holds exactly for the `KeyError` constructor. -/
def PyErr.isKeyError : PyErr → Bool
  | .keyError _ => true
  | _ => false

/-! ## Underlying byte streams

The native streams the handlers wrap (a `ZipExtFile`, a decompressed
GZIP stream, a `tarfile.ExFileObject`) are modelled as a byte list
with a cursor.  `tarfile`'s extraction stream is observed by the
source (pfile.py lines 745-748) to sometimes return more bytes than
requested; the `oracle` field supplies the per-call excess for that
over-reading read.  Streams read exactly carry an empty oracle and
never consult it. -/

/-- The decompressed-content stream a handler delegates to: content,
read cursor, and the over-read excess amounts for successive reads
(used only by the TAR handler's underlying extraction stream). -/
structure ByteStream where
  data : List Nat
  pos : Nat
  oracle : List Nat := []
  deriving DecidableEq, Repr

/-- Exact file-like read: `size < 0` (or `none`) reads everything from
the cursor; `size ≥ 0` returns at most `size` bytes.  This is the
behaviour of `ZipExtFile.read` and `gzip.GzipFile.read`. -/
def ByteStream.readEx (s : ByteStream) (size : Option Int) : List Nat × ByteStream :=
  match size with
  | some n =>
    if 0 ≤ n then
      let chunk := (s.data.drop s.pos).take n.toNat
      (chunk, { s with pos := s.pos + chunk.length })
    else
      let chunk := s.data.drop s.pos
      (chunk, { s with pos := s.pos + chunk.length })
  | none =>
    let chunk := s.data.drop s.pos
    (chunk, { s with pos := s.pos + chunk.length })

/-- Over-reading read of the TAR extraction stream: a bounded read of
`n ≥ 0` bytes may return up to `n + e` bytes, where `e` is drawn from
the stream's oracle; an unbounded read returns the whole rest.  The
over-read never runs past the end of the member. -/
def ByteStream.readOver (s : ByteStream) (size : Option Int) : List Nat × ByteStream :=
  match size with
  | some n =>
    if 0 ≤ n then
      let e := s.oracle.headD 0
      let chunk := (s.data.drop s.pos).take (n.toNat + e)
      (chunk, { s with pos := s.pos + chunk.length, oracle := s.oracle.tail })
    else
      let chunk := s.data.drop s.pos
      (chunk, { s with pos := s.pos + chunk.length, oracle := s.oracle.tail })
  | none =>
    let chunk := s.data.drop s.pos
    (chunk, { s with pos := s.pos + chunk.length, oracle := s.oracle.tail })

/-- Absolute seek of a native random-access stream. -/
def ByteStream.seekAbs (s : ByteStream) (offset : Int) : ByteStream :=
  { s with pos := offset.toNat }

/-- Relative seek (`whence = 1`) of a native stream. -/
def ByteStream.seekRel (s : ByteStream) (offset : Int) : ByteStream :=
  { s with pos := ((s.pos : Int) + offset).toNat }

/-! ## The filesystem handle cache

`FilesystemCache` (pfile.py lines 67-132) maps the key
`u'%s:%d:%d' % (path, offset, store_nr)` to an opened
`FilesystemContainer`.  Since `offset` and `store_nr` are rendered as
decimal integers (which never contain a colon), the key string
determines and is determined by the triple, so the key is modelled as
the triple itself.  Object identity of the containers is modelled by
a fresh-id counter; the opening of the underlying volume
(`OpenTskImage` / `OpenVssImage`), which lives outside this file, is
modelled by an oracle saying whether the open succeeds, and every
attempted underlying open is logged in `opens`. -/

/-- Embeds `FilesystemContainer` (pfile.py lines 45-64): the cached object;
`id` models Python object identity (each constructor call makes a
distinct object). -/
structure FilesystemContainer where
  id : Nat
  path : String
  offset : Int
  store_nr : Int
  deriving DecidableEq, Repr

/-- The cache key: the triple rendered by `u'%s:%d:%d'`. -/
def fsHash (path : String) (offset store_nr : Int) : String × Int × Int :=
  (path, offset, store_nr)

/-- The mutable class-level state of `FilesystemCache`, plus the
bookkeeping this development needs: `nextId` allocates object
identities, `opens` logs every attempted underlying volume open. -/
structure CacheState where
  cached_filesystems : List ((String × Int × Int) × FilesystemContainer)
  nextId : Nat
  opens : List (String × Int × Int)
  deriving DecidableEq, Repr

/-- The empty cache at process start. -/
def CacheState.init : CacheState := ⟨[], 0, []⟩

/-- Lookup in the cache dictionary. -/
def CacheState.find (st : CacheState) (k : String × Int × Int) :
    Option FilesystemContainer :=
  (st.cached_filesystems.find? (fun p => p.1 = k)).map (·.2)

/-- Embeds `FilesystemCache.Open` (pfile.py lines 108-132): return the cached
container for the key if present; otherwise attempt the underlying
volume open (`OpenVssImage` when `store_nr >= 0`, else `OpenTskImage`,
both modelled by the success oracle `ok`), and only on success store
the fresh container under the key.  A failed open raises before the
store-into-cache line runs, so the dictionary is untouched. -/
def FilesystemCache.Open (ok : String → Int → Int → Bool) (st : CacheState)
    (path : String) (offset store_nr : Int) :
    Except PyErr FilesystemContainer × CacheState :=
  let h := fsHash path offset store_nr
  match st.find h with
  | some fs => (.ok fs, st)
  | none =>
    if ok path offset store_nr then
      let fs : FilesystemContainer := ⟨st.nextId, path, offset, store_nr⟩
      (.ok fs,
       { cached_filesystems := (h, fs) :: st.cached_filesystems,
         nextId := st.nextId + 1,
         opens := h :: st.opens })
    else
      (.error (.ioError "Unable to open the volume"),
       { st with opens := h :: st.opens })

/-- Embeds `VssFile._OpenFileSystem` (pfile.py lines 813-821): raises an
`IOError` when the pathspec has no `vss_store_number` field, before
ever calling `FilesystemCache.Open`; otherwise delegates to the cache
with the store number from the pathspec. -/
def VssFile.OpenFileSystem (ok : String → Int → Int → Bool) (st : CacheState)
    (vss_store_number : Option Int) (path : String) (offset : Int) :
    Except PyErr FilesystemContainer × CacheState :=
  match vss_store_number with
  | none =>
    (.error (.ioError "Unable to open VSS file: no VSS store number defined."), st)
  | some n => FilesystemCache.Open ok st path offset n

/-! ## Python sequence slicing

`buffer[:size]` and `buffer[size:]` for a possibly negative `size`,
as used by `TarFile.read`. -/

/-- Python `l[:i]`: a nonnegative bound takes a prefix, a negative
bound drops that many elements from the end. -/
def pySliceTo (l : List Nat) (i : Int) : List Nat :=
  if 0 ≤ i then l.take i.toNat else l.take (l.length - i.natAbs)

/-- Python `l[i:]`: a nonnegative bound drops a prefix, a negative
bound keeps that many elements at the end. -/
def pySliceFrom (l : List Nat) (i : Int) : List Nat :=
  if 0 ≤ i then l.drop i.toNat else l.drop (l.length - i.natAbs)

/-! ## ZIP member handler

`ZipFile` (pfile.py lines 429-560).  The handler state keeps the
member's decompressed content so that `seek`'s close-and-reopen
emulation (lines 542-545) can rebuild a fresh stream over the same
member, exactly as `self.Open(self.orig_fh)` re-extracts the same
member from the unchanged container. -/

/-- The mutable state of an open (or closed, `fh = none`) `ZipFile`
handler: the wrapped `ZipExtFile` stream, the member size recorded
from the central directory, the handler's own offset bookkeeping, and
the member content used by reopen. -/
structure ZipState where
  fh : Option ByteStream
  size : Nat
  offset : Nat
  member : List Nat
  deriving DecidableEq, Repr

/-- The success path of `ZipFile.Open` (pfile.py lines 450-470) on a
member with content `member`: a fresh `ZipExtFile` stream at position
0, `offset = 0`, `size` from the archive's directory entry. -/
def ZipFile.openMember (member : List Nat) : ZipState :=
  ⟨some ⟨member, 0, []⟩, member.length, 0, member⟩

/-- Embeds `ZipFile.read` (pfile.py lines 472-495): on a closed handler
return `''`; an unbound read is capped at `min (size - offset) 24MiB`;
otherwise delegate to the stream and advance the bookkept offset by
the number of bytes actually returned.  (The `linebuffer` splice of
lines 481-484 concerns only `readline` interleavings, which carry no
claim, so the modelled stream has an empty line buffer.) -/
def ZipFile.read (s : ZipState) (size : Option Int) : List Nat × ZipState :=
  match s.fh with
  | none => ([], s)
  | some fh =>
    let sz : Int := match size with
      | none => min ((s.size : Int) - (s.offset : Int)) (1024 * 1024 * 24)
      | some n => n
    let (line, fh') := fh.readEx (some sz)
    (line, { s with fh := some fh', offset := s.offset + line.length })

/-- Embeds `ZipFile.close` (pfile.py lines 532-536). -/
def ZipFile.close (s : ZipState) : ZipState :=
  match s.fh with
  | none => s
  | some _ => { s with fh := none, offset := 0 }

/-- The `whence = 0` arm of `ZipFile.seek` (pfile.py lines 542-545):
`self.close(); self.Open(self.orig_fh); _ = self.read(offset)` — a
fresh stream over the same member with `offset` bytes read and
dropped. -/
def ZipFile.seekStart (s : ZipState) (offset : Int) : ZipState :=
  (ZipFile.read (ZipFile.openMember s.member) (some offset)).2

/-- Embeds `ZipFile.seek` (pfile.py lines 538-560): raises `RuntimeError` on
a closed handler; `whence = 0` reopens and discards; `whence = 1`
reads-and-discards a positive delta and falls back to an absolute
reopen for a nonpositive one; `whence = 2` recomputes an absolute
target from `size` and either discards forward or reopens; any other
whence raises `RuntimeError`. -/
def ZipFile.seek (s : ZipState) (offset : Int) (whence : Nat) :
    Except PyErr ZipState :=
  match s.fh with
  | none => .error (.runtimeError "Unable to seek into a file that is not open.")
  | some _ =>
    match whence with
    | 0 => .ok (ZipFile.seekStart s offset)
    | 1 =>
      if 0 < offset then .ok (ZipFile.read s (some offset)).2
      else .ok (ZipFile.seekStart s ((s.offset : Int) + offset))
    | 2 =>
      let ofs : Int := (s.size : Int) + offset
      if ofs > (s.offset : Int) then
        .ok (ZipFile.read s (some (ofs - (s.offset : Int)))).2
      else
        .ok (ZipFile.read (ZipFile.seekStart s 0) (some ofs)).2
    | _ => .error (.runtimeError "Illegal whence value")

/-- Embeds `ZipFile.tell` (pfile.py lines 514-530): the bookkept offset, 0
when closed. -/
def ZipFile.tell (s : ZipState) : Nat :=
  match s.fh with
  | none => 0
  | some _ => s.offset

/-- Embeds `ZipFile.Open`'s member lookup (pfile.py line 465): `zf.getinfo`
raises `KeyError('There is no item named %r in the archive')` when the
member path is not in the container; only then is the member stream
opened.  The container is the list of member names with their
contents. -/
def ZipFile.Open (container : List (String × List Nat)) (file_path : String) :
    Except PyErr ZipState :=
  match container.find? (fun m => m.1 = file_path) with
  | none =>
    .error (.keyError
      ("There is no item named " ++ file_path ++ " in the archive"))
  | some m => .ok (ZipFile.openMember m.2)

/-! ## GZIP stream handler

`GzipFile` (pfile.py lines 563-642).  `fh` is the decompressed
stream; `gzip.GzipFile` supports `whence ∈ {0, 1}` natively (rewinding
and reading forward when needed), so its net effect is an absolute
cursor move on the decompressed content. -/

/-- The state of a `GzipFile` handler: the decompressed stream and the
size discovered by the initial probe read. -/
structure GzipState where
  fh : Option ByteStream
  size : Nat
  deriving DecidableEq, Repr

/-- A freshly opened `GzipFile` over decompressed content `data`
(pfile.py lines 615-642): probe-read, rewound, size recorded. -/
def GzipFile.openStream (data : List Nat) : GzipState :=
  ⟨some ⟨data, 0, []⟩, data.length⟩

/-- Embeds `GzipFile.read` (pfile.py lines 608-613): delegates to the
decompressed stream, `''` when closed. -/
def GzipFile.read (s : GzipState) (size : Int) : List Nat × GzipState :=
  match s.fh with
  | none => ([], s)
  | some fh =>
    let (chunk, fh') := fh.readEx (some size)
    (chunk, { s with fh := some fh' })

/-- Embeds `GzipFile.seek` (pfile.py lines 579-606): raises `RuntimeError`
on a closed handler; `whence = 2` recomputes the absolute target
`size + offset` and moves there (reading forward, or rewinding first);
`whence ∈ {0, 1}` delegates to `gzip.GzipFile.seek`, whose net effect
is the absolute target (it rewinds and skips forward as needed); any
other whence makes the gzip library raise `ValueError`. -/
def GzipFile.seek (s : GzipState) (offset : Int) (whence : Nat) :
    Except PyErr GzipState :=
  match s.fh with
  | none => .error (.runtimeError "Unable to seek into a file that is not open.")
  | some fh =>
    match whence with
    | 0 => .ok { s with fh := some (fh.seekAbs offset) }
    | 1 => .ok { s with fh := some (fh.seekRel offset) }
    | 2 => .ok { s with fh := some (fh.seekAbs ((s.size : Int) + offset)) }
    | _ => .error (.valueError "Seek from end not supported")

/-- Embeds how `GzipFile` inherits `PlasoFile.tell` (pfile.py lines 198-203):
the stream's position, 0 when closed. -/
def GzipFile.tell (s : GzipState) : Nat :=
  match s.fh with
  | none => 0
  | some fh => fh.pos

/-! ## TAR member handler

`TarFile` (pfile.py lines 692-805).  The handler owns a lookahead
`buffer` holding back the bytes the underlying extraction stream
over-read past the requested size. -/

/-- The state of a `TarFile` handler: the extraction stream (with its
over-read oracle) and the lookahead buffer. -/
structure TarState where
  fh : Option ByteStream
  buffer : List Nat
  size : Nat
  deriving DecidableEq, Repr

/-- A tar container member: `regular = false` models the members
(directories, specials) for which `tarfile.TarFile.extractfile`
returns `None`. -/
structure TarMember where
  name : String
  regular : Bool
  data : List Nat
  deriving DecidableEq, Repr

/-- Embeds `TarFile.Open` (pfile.py lines 706-724): `ft.extractfile` goes
through `tarfile.TarFile.getmember`, which raises
`KeyError("filename %r not found")` for a member path absent from the
container; for a present member that is not a regular file it returns
`None`, and the handler then raises
`IOError('[TAR] File %s empty or unable to open.')`; otherwise the
extracted stream (whose reads may over-read by the amounts in
`oracle`) is installed with an empty lookahead buffer. -/
def TarFile.Open (container : List TarMember) (file_path : String)
    (oracle : List Nat) : Except PyErr TarState :=
  match container.find? (fun m => m.name = file_path) with
  | none => .error (.keyError ("filename " ++ file_path ++ " not found"))
  | some m =>
    if m.regular then
      .ok ⟨some ⟨m.data, 0, oracle⟩, [], m.data.length⟩
    else
      .error (.ioError ("[TAR] File " ++ file_path ++ " empty or unable to open."))

/-- A freshly opened handler over a regular member with content
`data` and over-read oracle `oracle`. -/
def TarFile.openMember (data : List Nat) (oracle : List Nat) : TarState :=
  ⟨some ⟨data, 0, oracle⟩, [], data.length⟩

/-- Embeds `TarFile.read` (pfile.py lines 726-753), unfolded by cases on the
`size` argument; truthiness of `size` in Python (`if size:`) means
"`size` is neither `None` nor `0`", so a requested size of `0` falls
through to the unbounded-read branch.  On a closed handler return
`''`; if `size` is truthy and the buffer already holds `size` bytes,
serve the slice from the buffer; otherwise take the whole buffer, read
`size - len(ret)` (unbounded when `size` is falsy) from the extraction
stream, and hold back in the buffer whatever came in beyond the
requested size. -/
def TarFile.read (s : TarState) (size : Option Int) : List Nat × TarState :=
  match s.fh with
  | none => ([], s)
  | some fh =>
    match size with
    | some n =>
      if n ≠ 0 ∧ (s.buffer.length : Int) ≥ n then
        (pySliceTo s.buffer n, { s with buffer := pySliceFrom s.buffer n })
      else
        let ret := s.buffer
        let read_size : Option Int :=
          if n ≠ 0 then some (n - (ret.length : Int)) else none
        let (chunk, fh') := fh.readOver read_size
        let ret := ret ++ chunk
        if n ≠ 0 ∧ (ret.length : Int) > n then
          (pySliceTo ret n,
           { s with buffer := pySliceFrom ret n, fh := some fh' })
        else
          (ret, { s with buffer := [], fh := some fh' })
    | none =>
      let ret := s.buffer
      let (chunk, fh') := fh.readOver none
      (ret ++ chunk, { s with buffer := [], fh := some fh' })

/-- Embeds `TarFile.seek` (pfile.py lines 786-799): raises `RuntimeError` on
a closed handler; `whence = 1` consumes from the buffer when it can,
otherwise discards the buffer and seeks the stream by the remainder;
any other whence discards the buffer and delegates to the stream. -/
def TarFile.seek (s : TarState) (offset : Int) (whence : Nat) :
    Except PyErr TarState :=
  match s.fh with
  | none => .error (.runtimeError "Unable to seek into a file that is not open.")
  | some fh =>
    if whence = 1 then
      if 0 < offset ∧ (s.buffer.length : Int) > offset then
        .ok { s with buffer := pySliceFrom s.buffer offset }
      else
        .ok { s with buffer := [],
                     fh := some (fh.seekRel (offset - (s.buffer.length : Int))) }
    else
      .ok { s with buffer := [], fh := some (fh.seekAbs offset) }

/-- Embeds `TarFile.tell` (pfile.py lines 801-805): the extraction stream's
position minus the bytes still held in the lookahead buffer; 0 when
closed. -/
def TarFile.tell (s : TarState) : Int :=
  match s.fh with
  | none => 0
  | some fh => (fh.pos : Int) - (s.buffer.length : Int)

/-! ## The Stats projection

`Stats` (pfile.py lines 830-865): a dynamic attribute bag.
`__setattr__` routes every attribute other than the real `attributes`
slot into the dictionary; `__getattr__` (reached only when ordinary
lookup fails, i.e. for every metadata field) serves the dictionary or
raises `AttributeError('Attribute not defined')`.  The model covers
the metadata fields (every name other than the `attributes` slot
itself); values are the integers the handlers store. -/

/-- The attribute store of a `Stats` object. -/
structure Stats where
  attributes : List (String × Int)
  deriving DecidableEq, Repr

/-- Embeds `Stats()` — the empty attribute store. -/
def Stats.init : Stats := ⟨[]⟩

/-- Embeds `Stats.__setattr__` (pfile.py lines 838-844) for a metadata field
(any name other than the `attributes` slot): stores into the
dictionary, replacing an earlier value for the same name. -/
def Stats.setattr (s : Stats) (attr : String) (v : Int) : Stats :=
  ⟨(attr, v) :: s.attributes.filter (fun p => p.1 ≠ attr)⟩

/-- Embeds `Stats.__getattr__` (pfile.py lines 851-865) for a metadata field:
serves the dictionary entry when present, otherwise raises
`AttributeError('Attribute not defined')`. -/
def Stats.getattr (s : Stats) (attr : String) : Except PyErr Int :=
  match s.attributes.find? (fun p => p.1 = attr) with
  | some p => .ok p.2
  | none => .error (.attributeError "Attribute not defined")

/-! ## The base handler interface

`PlasoFile.seek/read/tell` (pfile.py lines 176-203): the default
delegating implementations, guarded on `self.fh`. -/

/-- Embeds `PlasoFile.seek` (pfile.py lines 177-182): delegates to the
stream, raising `RuntimeError` when the handler is not open.  Only
`whence ∈ {0, 1}` reach a native delegate here; the guard is what the
claims are about. -/
def PlasoFile.seek (fh : Option ByteStream) (offset : Int) (whence : Nat) :
    Except PyErr ByteStream :=
  match fh with
  | none => .error (.runtimeError "Unable to seek into a file that is not open.")
  | some st => .ok (if whence = 1 then st.seekRel offset else st.seekAbs offset)

/-- Embeds `PlasoFile.read` (pfile.py lines 185-195): delegates to the
stream, returning `''` when the handler is not open. -/
def PlasoFile.read (fh : Option ByteStream) (size : Option Int) :
    List Nat × Option ByteStream :=
  match fh with
  | none => ([], none)
  | some st =>
    let (chunk, st') := st.readEx size
    (chunk, some st')

/-- Embeds `PlasoFile.tell` (pfile.py lines 198-203): the stream position,
0 when the handler is not open. -/
def PlasoFile.tell (fh : Option ByteStream) : Nat :=
  match fh with
  | none => 0
  | some st => st.pos

/-! ## The resolver

`OpenPFile` (pfile.py lines 882-951) and the root bookkeeping of
`PlasoFile.__init__` (lines 143-161). -/

/-- The `PathSpec.FileType` enum of the transmission protobuf. -/
inductive PType where
  | UNSET | TSK | OS | ZIP | GZIP | BZ2 | TAR | VSS
  deriving DecidableEq, Repr

/-- The transmission `PathSpec` protobuf: one hop's type and fields
plus the optional nested pathspec one level deeper. -/
inductive PathSpec where
  | mk (ptype : PType) (file_path container_path : String)
       (image_offset image_inode vss_store_number : Option Int)
       (nested_pathspec : Option PathSpec)

/-- The hop type of a pathspec. -/
def PathSpec.ptype : PathSpec → PType
  | .mk t _ _ _ _ _ _ => t

/-- The nested pathspec, if any. -/
def PathSpec.nested : PathSpec → Option PathSpec
  | .mk _ _ _ _ _ _ n => n

/-- The pathspec of the innermost hop of a chain. -/
def PathSpec.innermost : PathSpec → PathSpec
  | .mk t a b c d e none => .mk t a b c d e none
  | .mk _ _ _ _ _ _ (some n) => n.innermost

/-- The descriptor chain outermost-first. -/
def PathSpec.chain : PathSpec → List PathSpec
  | .mk t a b c d e none => [.mk t a b c d e none]
  | .mk t a b c d e (some n) => .mk t a b c d e (some n) :: n.chain

/-- A constructed handler as `PlasoFile.__init__` (pfile.py lines
143-161) records it: its own pathspec, its `pathspec_root` (the
passed root, or the pathspec itself when none was passed), and the
upstream handler `Open` received as its byte source. -/
inductive Handler where
  | mk (pathspec pathspec_root : PathSpec) (src : Option Handler)

/-- The pathspec a handler was built from. -/
def Handler.pathspec : Handler → PathSpec
  | .mk p _ _ => p

/-- The handler's root pathspec. -/
def Handler.pathspec_root : Handler → PathSpec
  | .mk _ r _ => r

/-- The upstream source handler passed to `Open`. -/
def Handler.src : Handler → Option Handler
  | .mk _ _ s => s

/-- The handlers of a resolved chain, innermost-first, read off the
upstream links. -/
def Handler.upstreamChain : Handler → List Handler
  | .mk p r none => [.mk p r none]
  | .mk p r (some s) => .mk p r (some s) :: s.upstreamChain

/-- Embeds `OpenPFile` (pfile.py lines 925-951), success path: construct the
handler for `spec` (the dispatch table selects the handler class by
`spec.type`, so the type check in `PlasoFile.__init__` passes), call
`Open` with the upstream handler `fh`, and if the spec has a nested
pathspec recurse on it with the just-opened handler as the new
upstream and the original root pathspec (`orig`, or `spec` itself at
the outermost level) as the propagated root; otherwise return the
handler. -/
def OpenPFile (spec : PathSpec) (fh : Option Handler) (orig : Option PathSpec) :
    Handler :=
  let handler : Handler := .mk spec (orig.getD spec) fh
  match h : spec.nested with
  | some n => OpenPFile n (some handler) (some (orig.getD spec))
  | none => handler
termination_by spec
decreasing_by
  cases spec with
  | mk t a b c d e nn => cases nn with
    | none => simp [PathSpec.nested] at h
    | some m => simp [PathSpec.nested] at h; subst h; simp; omega

/-! ## Upstream side effects of `GzipFile.Open` and `Bz2File.Open`

pfile.py lines 615-623 and 674-688.  The upstream handler is
summarised by its cursor and whether its `seek` raises
`NotImplementedError`. -/

/-- What `GzipFile.Open` and `Bz2File.Open` see of the upstream
handler they wrap: its cursor position and whether its `seek` is
implemented. -/
structure UpstreamState where
  pos : Int
  seekNotImpl : Bool
  deriving DecidableEq, Repr

/-- The effect of `GzipFile.Open` (pfile.py lines 615-623, 631-642)
on the upstream handler it wraps: `filehandle.seek(0)` moves the
upstream cursor to 0 before wrapping (propagating
`NotImplementedError` if the upstream cannot seek); the probe read
then pulls compressed bytes and `rewind` seeks the wrapped object
back to the start, so the upstream cursor ends at 0. -/
def GzipFile.openUpstream (u : UpstreamState) : Except PyErr UpstreamState :=
  if u.seekNotImpl then
    .error (.notImplError "seek")
  else
    .ok { u with pos := 0 }

/-- The effect of `Bz2File.Open` (pfile.py lines 674-688) on the
upstream handler: `filehandle.seek(0)` inside a
`try/except NotImplementedError: pass`, so an unseekable upstream is
left untouched and the open proceeds; a seekable one is rewound to
position 0. -/
def Bz2File.openUpstream (u : UpstreamState) : UpstreamState :=
  if u.seekNotImpl then u else { u with pos := 0 }

/-! ## Theorems: the filesystem handle cache (C2, C3, C9) -/

/-- Well-formedness of the cache state: every cached container's
identity was allocated below the counter, and container identity
determines the cache key.  Both hold of the empty initial cache and
are preserved by `FilesystemCache.Open`. -/
def CacheWF (st : CacheState) : Prop :=
  (∀ p ∈ st.cached_filesystems, p.2.id < st.nextId) ∧
  (∀ p ∈ st.cached_filesystems, ∀ q ∈ st.cached_filesystems,
     p.2.id = q.2.id → p.1 = q.1)

lemma CacheState.find_mem {st : CacheState} {k : String × Int × Int}
    {c : FilesystemContainer} (h : st.find k = some c) :
    (k, c) ∈ st.cached_filesystems := by
  unfold CacheState.find at h
  cases hf : st.cached_filesystems.find? (fun p => p.1 = k) with
  | none => rw [hf] at h; simp at h
  | some q =>
    rw [hf] at h
    simp only [Option.map_some', Option.some.injEq] at h
    have hq := List.find?_some hf
    have hm : q ∈ st.cached_filesystems := List.mem_of_find?_eq_some hf
    simp only [decide_eq_true_eq] at hq
    cases q with
    | mk k' c' =>
      cases hq; cases h; exact hm

/-- The initial cache is well formed. -/
lemma cacheWF_init : CacheWF CacheState.init := by
  constructor <;> intro p hp <;> simp [CacheState.init] at hp

/-- C2: opening the same key twice returns the very same cached
`FilesystemContainer` object and leaves the cache untouched on the
second call; opening an otherwise identical key with a different
snapshot store number returns a distinct backing volume object. -/
theorem filesystemCache_open_same_key_same_object
    (ok : String → Int → Int → Bool) (st : CacheState)
    (path : String) (offset s1 s2 : Int)
    (c1 c2 c3 : FilesystemContainer) (st1 st2 st3 : CacheState)
    (hwf : CacheWF st) (hne : s1 ≠ s2)
    (h1 : FilesystemCache.Open ok st path offset s1 = (.ok c1, st1))
    (h2 : FilesystemCache.Open ok st1 path offset s1 = (.ok c2, st2))
    (h3 : FilesystemCache.Open ok st2 path offset s2 = (.ok c3, st3)) :
    (c2 = c1 ∧ st2 = st1) ∧ c3.id ≠ c1.id := by
  have hkey : fsHash path offset s1 ≠ fsHash path offset s2 := by
    simp [fsHash, hne]
  cases hf1 : st.find (fsHash path offset s1) with
  | some c =>
    simp only [FilesystemCache.Open, hf1, Prod.mk.injEq, Except.ok.injEq] at h1
    obtain ⟨hc1, hst1⟩ := h1
    subst hc1; subst hst1
    -- second open hits the same entry
    simp only [FilesystemCache.Open, hf1, Prod.mk.injEq, Except.ok.injEq] at h2
    obtain ⟨hc2, hst2⟩ := h2
    subst hc2; subst hst2
    refine ⟨⟨rfl, rfl⟩, ?_⟩
    -- third open, different store number, over the unchanged cache
    cases hf2 : st.find (fsHash path offset s2) with
    | some c' =>
      simp only [FilesystemCache.Open, hf2, Prod.mk.injEq, Except.ok.injEq] at h3
      obtain ⟨hc3, _⟩ := h3
      subst hc3
      intro hid
      exact hkey (hwf.2 _ (CacheState.find_mem hf1) _ (CacheState.find_mem hf2)
        hid.symm)
    | none =>
      by_cases hok : ok path offset s2 = true
      · simp only [FilesystemCache.Open, hf2, if_pos hok, Prod.mk.injEq,
          Except.ok.injEq] at h3
        obtain ⟨hc3, _⟩ := h3
        subst hc3
        have := hwf.1 _ (CacheState.find_mem hf1)
        simp only at this ⊢
        omega
      · simp only [FilesystemCache.Open, hf2, if_neg hok] at h3
        simp at h3
  | none =>
    by_cases hok : ok path offset s1 = true
    · simp only [FilesystemCache.Open, hf1, if_pos hok, Prod.mk.injEq,
        Except.ok.injEq] at h1
      obtain ⟨hc1, hst1⟩ := h1
      subst hc1
      have hfind1 : st1.find (fsHash path offset s1) =
          some ⟨st.nextId, path, offset, s1⟩ := by
        rw [← hst1]
        simp [CacheState.find, List.find?_cons]
      simp only [FilesystemCache.Open, hfind1, Prod.mk.injEq,
        Except.ok.injEq] at h2
      obtain ⟨hc2, hst2⟩ := h2
      subst hc2; subst hst2
      refine ⟨⟨rfl, rfl⟩, ?_⟩
      cases hf2 : st1.find (fsHash path offset s2) with
      | some c' =>
        simp only [FilesystemCache.Open, hf2, Prod.mk.injEq,
          Except.ok.injEq] at h3
        obtain ⟨hc3, _⟩ := h3
        subst hc3
        have hmem := CacheState.find_mem hf2
        rw [← hst1] at hmem
        simp only [List.mem_cons, Prod.mk.injEq] at hmem
        rcases hmem with ⟨hk, _⟩ | hmem
        · exact absurd hk.symm hkey
        · have := hwf.1 _ hmem
          simp only at this ⊢
          omega
      | none =>
        by_cases hok2 : ok path offset s2 = true
        · simp only [FilesystemCache.Open, hf2, if_pos hok2, Prod.mk.injEq,
            Except.ok.injEq] at h3
          obtain ⟨hc3, _⟩ := h3
          subst hc3
          have hnext : st1.nextId = st.nextId + 1 := by rw [← hst1]
          simp only [hnext]
          omega
        · simp only [FilesystemCache.Open, hf2, if_neg hok2] at h3
          simp at h3
    · simp only [FilesystemCache.Open, hf1, if_neg hok] at h1
      simp at h1

/-- Closed witness for `filesystemCache_open_same_key_same_object`:
a concrete run from the empty cache with an always-succeeding volume
open, keys `("image.dd", 0, 1)` and `("image.dd", 0, 2)`. -/
theorem filesystemCache_open_same_key_same_object_witness :
    (⟨0, "image.dd", 0, 1⟩ : FilesystemContainer) =
        (⟨0, "image.dd", 0, 1⟩ : FilesystemContainer) ∧
    ((⟨0, "image.dd", 0, 1⟩ : FilesystemContainer) =
        ⟨0, "image.dd", 0, 1⟩ ∧
      (⟨[(("image.dd", 0, 1), ⟨0, "image.dd", 0, 1⟩)], 1,
        [("image.dd", 0, 1)]⟩ : CacheState) =
        ⟨[(("image.dd", 0, 1), ⟨0, "image.dd", 0, 1⟩)], 1,
        [("image.dd", 0, 1)]⟩) ∧
    (⟨1, "image.dd", 0, 2⟩ : FilesystemContainer).id ≠
      (⟨0, "image.dd", 0, 1⟩ : FilesystemContainer).id :=
  ⟨rfl,
   filesystemCache_open_same_key_same_object (fun _ _ _ => true)
     CacheState.init "image.dd" 0 1 2
     ⟨0, "image.dd", 0, 1⟩ ⟨0, "image.dd", 0, 1⟩ ⟨1, "image.dd", 0, 2⟩
     ⟨[(("image.dd", 0, 1), ⟨0, "image.dd", 0, 1⟩)], 1, [("image.dd", 0, 1)]⟩
     ⟨[(("image.dd", 0, 1), ⟨0, "image.dd", 0, 1⟩)], 1, [("image.dd", 0, 1)]⟩
     ⟨[(("image.dd", 0, 2), ⟨1, "image.dd", 0, 2⟩),
       (("image.dd", 0, 1), ⟨0, "image.dd", 0, 1⟩)], 2,
      [("image.dd", 0, 2), ("image.dd", 0, 1)]⟩
     cacheWF_init (by decide) rfl rfl rfl⟩

/-- C3: opening a VSS pathspec whose snapshot store number field is
absent yields an open error (`IOError`) and returns the cache state
untouched — in particular the log of attempted volume opens is
unchanged, so no volume open or cache mutation was attempted — while
a present store number is passed through unchanged to
`FilesystemCache.Open` (never defaulted to zero). -/
theorem vssFile_missing_store_number_fails
    (ok : String → Int → Int → Bool) (st : CacheState)
    (path : String) (offset : Int) :
    (∃ msg, (VssFile.OpenFileSystem ok st none path offset).1 =
        .error (.ioError msg)) ∧
    (VssFile.OpenFileSystem ok st none path offset).2 = st ∧
    (∀ n : Int, VssFile.OpenFileSystem ok st (some n) path offset =
        FilesystemCache.Open ok st path offset n) := by
  refine ⟨⟨"Unable to open VSS file: no VSS store number defined.", rfl⟩, rfl, ?_⟩
  intro n
  rfl

/-- C9: when the underlying volume open fails, `FilesystemCache.Open`
surfaces the error and leaves the cache dictionary (and the id
counter) unchanged — no entry is stored under the key — so a later
call with the same key attempts a fresh open and, once the underlying
open succeeds, stores and returns a fresh container. -/
theorem filesystemCache_open_failure_leaves_cache_unchanged
    (ok : String → Int → Int → Bool) (st : CacheState)
    (path : String) (offset store_nr : Int)
    (hfind : st.find (fsHash path offset store_nr) = none)
    (hfail : ok path offset store_nr = false) :
    (FilesystemCache.Open ok st path offset store_nr).1 =
      .error (.ioError "Unable to open the volume") ∧
    (FilesystemCache.Open ok st path offset store_nr).2.cached_filesystems =
      st.cached_filesystems ∧
    (FilesystemCache.Open ok st path offset store_nr).2.nextId = st.nextId ∧
    (∀ ok2 : String → Int → Int → Bool, ok2 path offset store_nr = true →
      (FilesystemCache.Open ok2
          (FilesystemCache.Open ok st path offset store_nr).2
          path offset store_nr).1 =
        .ok ⟨st.nextId, path, offset, store_nr⟩ ∧
      (FilesystemCache.Open ok2
          (FilesystemCache.Open ok st path offset store_nr).2
          path offset store_nr).2.opens =
        fsHash path offset store_nr ::
          (FilesystemCache.Open ok st path offset store_nr).2.opens) := by
  have hok : ¬ (ok path offset store_nr = true) := by simp [hfail]
  have hrun : FilesystemCache.Open ok st path offset store_nr =
      (.error (.ioError "Unable to open the volume"),
       { st with opens := fsHash path offset store_nr :: st.opens }) := by
    simp only [FilesystemCache.Open, hfind, if_neg hok]
  have hfind2 : ({ st with opens := fsHash path offset store_nr :: st.opens } :
      CacheState).find (fsHash path offset store_nr) = none := hfind
  rw [hrun]
  refine ⟨rfl, rfl, rfl, ?_⟩
  intro ok2 hok2
  have hrun2 : FilesystemCache.Open ok2
      ({ st with opens := fsHash path offset store_nr :: st.opens })
      path offset store_nr =
      (.ok ⟨st.nextId, path, offset, store_nr⟩,
       { cached_filesystems :=
           (fsHash path offset store_nr,
            ⟨st.nextId, path, offset, store_nr⟩) :: st.cached_filesystems,
         nextId := st.nextId + 1,
         opens := fsHash path offset store_nr ::
           fsHash path offset store_nr :: st.opens }) := by
    simp only [FilesystemCache.Open, hfind2, if_pos hok2]
  exact ⟨by rw [hrun2], by rw [hrun2]⟩

/-- Closed witness for
`filesystemCache_open_failure_leaves_cache_unchanged`: a run from the
empty cache where the first underlying open fails and the retry
succeeds. -/
theorem filesystemCache_open_failure_witness :
    (FilesystemCache.Open (fun _ _ _ => false) CacheState.init "img" 0 3).1 =
      .error (.ioError "Unable to open the volume") ∧
    (FilesystemCache.Open (fun _ _ _ => false) CacheState.init
        "img" 0 3).2.cached_filesystems = CacheState.init.cached_filesystems ∧
    (FilesystemCache.Open (fun _ _ _ => false) CacheState.init
        "img" 0 3).2.nextId = CacheState.init.nextId ∧
    (∀ ok2 : String → Int → Int → Bool, ok2 "img" 0 3 = true →
      (FilesystemCache.Open ok2
          (FilesystemCache.Open (fun _ _ _ => false) CacheState.init
            "img" 0 3).2 "img" 0 3).1 =
        .ok ⟨CacheState.init.nextId, "img", 0, 3⟩ ∧
      (FilesystemCache.Open ok2
          (FilesystemCache.Open (fun _ _ _ => false) CacheState.init
            "img" 0 3).2 "img" 0 3).2.opens =
        fsHash "img" 0 3 ::
          (FilesystemCache.Open (fun _ _ _ => false) CacheState.init
            "img" 0 3).2.opens) :=
  filesystemCache_open_failure_leaves_cache_unchanged
    (fun _ _ _ => false) CacheState.init "img" 0 3 (by decide) (by decide)

/-! ## Theorems: the Stats projection (C8) -/

/-- C8: reading a `Stats` field that was never populated raises
`AttributeError` rather than returning a null or zero default, so an
unset field is distinguishable from a field populated with zero:
populating a field with `0` makes the same read return `0`
successfully. -/
theorem stats_unset_field_raises
    (s : Stats) (attr : String)
    (hunset : s.attributes.find? (fun p => p.1 = attr) = none) :
    Stats.getattr s attr = .error (.attributeError "Attribute not defined") ∧
    Stats.getattr (Stats.setattr s attr 0) attr = .ok 0 ∧
    Stats.getattr (Stats.setattr s attr 0) attr ≠
      Stats.getattr s attr := by
  have h1 : Stats.getattr s attr =
      .error (.attributeError "Attribute not defined") := by
    simp only [Stats.getattr, hunset]
  have h2 : Stats.getattr (Stats.setattr s attr 0) attr = .ok 0 := by
    simp [Stats.getattr, Stats.setattr, List.find?_cons]
  exact ⟨h1, h2, by rw [h1, h2]; simp⟩

/-- Closed witness for `stats_unset_field_raises`: a fresh `Stats`
object and the `size` field. -/
theorem stats_unset_field_raises_witness :
    Stats.getattr Stats.init "size" =
      .error (.attributeError "Attribute not defined") ∧
    Stats.getattr (Stats.setattr Stats.init "size" 0) "size" = .ok 0 ∧
    Stats.getattr (Stats.setattr Stats.init "size" 0) "size" ≠
      Stats.getattr Stats.init "size" :=
  stats_unset_field_raises Stats.init "size" (by decide)

/-! ## Theorems: usage errors on unopened handlers (C7) -/

/-- C7: on a handler that has never been opened or has been closed
(`fh` unset) — for the base `PlasoFile` delegation and for the ZIP,
GZIP and TAR handlers alike — `seek` raises `RuntimeError` (a usage
error, not an `IOError`), `read` returns the empty string, and `tell`
returns 0. -/
theorem closed_handler_usage_errors
    (offset : Int) (whence : Nat) (size : Option Int) (sz mo : Nat)
    (member : List Nat) (gsz tsz : Nat) (buf : List Nat) :
    (PlasoFile.seek none offset whence =
        .error (.runtimeError "Unable to seek into a file that is not open.") ∧
      (PlasoFile.read none size).1 = [] ∧ PlasoFile.tell none = 0) ∧
    (ZipFile.seek ⟨none, sz, mo, member⟩ offset whence =
        .error (.runtimeError "Unable to seek into a file that is not open.") ∧
      (ZipFile.read ⟨none, sz, mo, member⟩ size).1 = [] ∧
      ZipFile.tell ⟨none, sz, mo, member⟩ = 0) ∧
    (GzipFile.seek ⟨none, gsz⟩ offset whence =
        .error (.runtimeError "Unable to seek into a file that is not open.") ∧
      (GzipFile.read ⟨none, gsz⟩ (-1)).1 = [] ∧
      GzipFile.tell ⟨none, gsz⟩ = 0) ∧
    (TarFile.seek ⟨none, buf, tsz⟩ offset whence =
        .error (.runtimeError "Unable to seek into a file that is not open.") ∧
      (TarFile.read ⟨none, buf, tsz⟩ size).1 = [] ∧
      TarFile.tell ⟨none, buf, tsz⟩ = 0) ∧
    (∀ msg, PyErr.runtimeError msg ≠ PyErr.ioError msg) := by
  refine ⟨⟨rfl, ?_, rfl⟩, ⟨rfl, ?_, rfl⟩, ⟨rfl, rfl, rfl⟩, ⟨rfl, ?_, rfl⟩, ?_⟩
  · cases size <;> rfl
  · cases size <;> rfl
  · cases size <;> rfl
  · intro msg
    simp

/-! ## Theorems: upstream side effects of GZIP/BZ2 Open (C10) -/

/-- C10: opening a GZIP or BZIP2 handler on top of an upstream
handler mutates that upstream handler: its cursor is seeked to
absolute position 0 before wrapping, so after `Open` the upstream's
position is no longer where the caller left it; for BZIP2 an upstream
`seek` raising `NotImplementedError` is silently tolerated (the
upstream is left untouched and the open proceeds), while GZIP
propagates it. -/
theorem gzip_bz2_open_mutates_upstream
    (u : UpstreamState) (hpos : u.pos ≠ 0) :
    (u.seekNotImpl = false →
      GzipFile.openUpstream u = .ok { u with pos := 0 } ∧
      ({ u with pos := 0 } : UpstreamState).pos ≠ u.pos) ∧
    (u.seekNotImpl = false →
      Bz2File.openUpstream u = { u with pos := 0 } ∧
      (Bz2File.openUpstream u).pos ≠ u.pos) ∧
    (u.seekNotImpl = true → Bz2File.openUpstream u = u) := by
  refine ⟨?_, ?_, ?_⟩
  · intro h
    constructor
    · simp [GzipFile.openUpstream, h]
    · simpa using fun hh => hpos hh.symm
  · intro h
    constructor
    · simp [Bz2File.openUpstream, h]
    · simp only [Bz2File.openUpstream, h, Bool.false_eq_true, if_false]
      simpa using fun hh => hpos hh.symm
  · intro h
    simp [Bz2File.openUpstream, h]

/-- Closed witness for `gzip_bz2_open_mutates_upstream`: an upstream
handler whose caller left the cursor at 37. -/
theorem gzip_bz2_open_mutates_upstream_witness :
    ((⟨37, false⟩ : UpstreamState).seekNotImpl = false →
      GzipFile.openUpstream ⟨37, false⟩ = .ok ⟨0, false⟩ ∧
      (⟨0, false⟩ : UpstreamState).pos ≠ (⟨37, false⟩ : UpstreamState).pos) ∧
    ((⟨37, false⟩ : UpstreamState).seekNotImpl = false →
      Bz2File.openUpstream ⟨37, false⟩ = ⟨0, false⟩ ∧
      (Bz2File.openUpstream ⟨37, false⟩).pos ≠
        (⟨37, false⟩ : UpstreamState).pos) ∧
    ((⟨37, false⟩ : UpstreamState).seekNotImpl = true →
      Bz2File.openUpstream ⟨37, false⟩ = ⟨37, false⟩) :=
  gzip_bz2_open_mutates_upstream ⟨37, false⟩ (by decide)

/-! ## Theorems: the resolver (C5) -/

/-- The upstream chain of an optional handler. -/
def Handler.optChain : Option Handler → List Handler
  | none => []
  | some hh => hh.upstreamChain

lemma openPFile_aux (spec : PathSpec) (fh : Option Handler)
    (orig : Option PathSpec) :
    (OpenPFile spec fh orig).pathspec = spec.innermost ∧
    (OpenPFile spec fh orig).upstreamChain.map Handler.pathspec =
      spec.chain.reverse ++ (Handler.optChain fh).map Handler.pathspec ∧
    ∀ hh ∈ (OpenPFile spec fh orig).upstreamChain,
      hh ∈ Handler.optChain fh ∨ hh.pathspec_root = orig.getD spec := by
  cases spec with
  | mk t a b c d e nn =>
    cases nn with
    | none =>
      rw [OpenPFile]
      simp only [PathSpec.nested]
      refine ⟨rfl, ?_, ?_⟩
      · cases fh with
        | none => rfl
        | some f =>
          simp [Handler.upstreamChain, Handler.optChain, PathSpec.chain,
            Handler.pathspec]
      · intro hh hmem
        cases fh with
        | none =>
          simp only [Handler.upstreamChain] at hmem
          simp only [List.mem_singleton] at hmem
          subst hmem
          right; rfl
        | some f =>
          simp only [Handler.upstreamChain] at hmem
          rcases List.mem_cons.mp hmem with hEq | hmem2
          · subst hEq; right; rfl
          · left; exact hmem2
    | some m =>
      rw [OpenPFile]
      simp only [PathSpec.nested]
      have ih := openPFile_aux m
        (some (Handler.mk (.mk t a b c d e (some m))
          (orig.getD (.mk t a b c d e (some m))) fh))
        (some (orig.getD (.mk t a b c d e (some m))))
      obtain ⟨ihA, ihB, ihC⟩ := ih
      refine ⟨ihA, ?_, ?_⟩
      · rw [ihB]
        simp only [Handler.optChain, Handler.upstreamChain, List.map_cons,
          PathSpec.chain, List.reverse_cons, List.append_assoc]
        cases fh with
        | none => simp [Handler.pathspec, Handler.upstreamChain, Handler.optChain]
        | some f => simp [Handler.pathspec, Handler.upstreamChain, Handler.optChain]
      · intro hh hmem
        rcases ihC hh hmem with hin | hroot
        · simp only [Handler.optChain] at hin
          cases fh with
          | none =>
            simp only [Handler.upstreamChain, List.mem_singleton] at hin
            subst hin; right; rfl
          | some f =>
            simp only [Handler.upstreamChain] at hin
            rcases List.mem_cons.mp hin with hEq | hmem2
            · subst hEq; right; rfl
            · left; exact hmem2
        · right
          simpa using hroot
termination_by spec
decreasing_by simp; omega

/-- C5: resolving a descriptor chain recurses on each nested
descriptor with the just-opened handler as the upstream source (so
the resolved handler's upstream chain visits exactly the chain's
descriptors, innermost first), gives every handler in the chain the
original outermost descriptor as its `pathspec_root`, and returns the
handler of the innermost descriptor as the result. -/
theorem openPFile_chain_structure (spec : PathSpec) :
    (OpenPFile spec none none).pathspec = spec.innermost ∧
    (OpenPFile spec none none).upstreamChain.map Handler.pathspec =
      spec.chain.reverse ∧
    ∀ hh ∈ (OpenPFile spec none none).upstreamChain,
      hh.pathspec_root = spec := by
  obtain ⟨hA, hB, hC⟩ := openPFile_aux spec none none
  refine ⟨hA, ?_, ?_⟩
  · simpa [Handler.optChain] using hB
  · intro hh hmem
    rcases hC hh hmem with hin | hroot
    · simp [Handler.optChain] at hin
    · simpa using hroot

/-! ## Stream computation lemmas -/

lemma ByteStream.readEx_nat (data : List Nat) (p : Nat) (o : List Nat) (n : Nat) :
    ByteStream.readEx ⟨data, p, o⟩ (some (n : Int)) =
      ((data.drop p).take n,
       ⟨data, p + ((data.drop p).take n).length, o⟩) := by
  simp [ByteStream.readEx, Int.toNat_natCast]

lemma ByteStream.readOver_nat (data : List Nat) (p : Nat) (o : List Nat) (n : Nat) :
    ByteStream.readOver ⟨data, p, o⟩ (some (n : Int)) =
      ((data.drop p).take (n + o.headD 0),
       ⟨data, p + ((data.drop p).take (n + o.headD 0)).length, o.tail⟩) := by
  simp [ByteStream.readOver, Int.toNat_natCast]

lemma pySliceTo_nat (l : List Nat) (n : Nat) : pySliceTo l (n : Int) = l.take n := by
  simp [pySliceTo, Int.toNat_natCast]

lemma pySliceFrom_nat (l : List Nat) (n : Nat) : pySliceFrom l (n : Int) = l.drop n := by
  simp [pySliceFrom, Int.toNat_natCast]

/-- The slice identity behind the seek-then-read claims: dropping `k`
bytes from a `k + n` byte prefix is the length-`n` slice at `k`. -/
lemma drop_take_slice (data : List Nat) (k n : Nat) :
    (data.take (k + n)).drop k = (data.drop k).take n := by
  rw [List.drop_take]
  congr 1
  omega

/-! ## Theorems: seek-then-read versus fresh-read-then-drop (C1, C6) -/

/-- For `ZipFile`: seeking to `k` from start then reading `n` gives the
length-`n` slice at `k`. -/
lemma zip_seek_read (s : ZipState) (data : List Nat) (fh0 : ByteStream)
    (hfh : s.fh = some fh0) (hmem : s.member = data)
    (k n : Nat) (hk : k ≤ data.length) :
    ∃ s', ZipFile.seek s (k : Int) 0 = .ok s' ∧
      (ZipFile.read s' (some (n : Int))).1 = (data.drop k).take n := by
  have hlen : (data.take k).length = k := by
    simp only [List.length_take]
    omega
  have hread : ZipFile.read ⟨some ⟨data, 0, []⟩, data.length, 0, data⟩
      (some (k : Int)) =
      (data.take k, ⟨some ⟨data, k, []⟩, data.length, k, data⟩) := by
    simp [ZipFile.read, ByteStream.readEx_nat, hlen]
  refine ⟨⟨some ⟨data, k, []⟩, data.length, k, data⟩, ?_, ?_⟩
  · simp only [ZipFile.seek, hfh, ZipFile.seekStart, hmem,
      ZipFile.openMember, hread]
  · simp [ZipFile.read, ByteStream.readEx_nat]

/-- For `GzipFile`: on any open handler over decompressed content `data`,
seeking to `k` from start then reading `n` gives the length-`n` slice
at `k`. -/
lemma gzip_seek_read (s : GzipState) (data : List Nat) (p0 : Nat)
    (o0 : List Nat) (hfh : s.fh = some ⟨data, p0, o0⟩) (k n : Nat) :
    ∃ s', GzipFile.seek s (k : Int) 0 = .ok s' ∧
      (GzipFile.read s' (n : Int)).1 = (data.drop k).take n := by
  refine ⟨{ s with fh := some ⟨data, k, o0⟩ }, ?_, ?_⟩
  · simp [GzipFile.seek, hfh, ByteStream.seekAbs, Int.toNat_natCast]
  · simp [GzipFile.read, ByteStream.readEx_nat]

/-- The invariant tying an open `TarFile` handler state to the member
content `data` and the number `c` of bytes consumed so far: the
extraction stream has read up to some `p`, and the lookahead buffer
holds exactly the over-read bytes `data[c:p]`. -/
def TarRepr (s : TarState) (data : List Nat) (c : Nat) : Prop :=
  ∃ p o, s.fh = some ⟨data, p, o⟩ ∧ c ≤ p ∧ p ≤ data.length ∧
    s.buffer = (data.drop c).take (p - c)

/-- A freshly opened TAR member handler has consumed nothing. -/
lemma tarRepr_openMember (data oracle : List Nat) :
    TarRepr (TarFile.openMember data oracle) data 0 := by
  exact ⟨0, oracle, rfl, le_refl _, Nat.zero_le _, by simp [TarFile.openMember]⟩

/-- Two adjacent slices concatenate to one longer slice. -/
lemma slice_append (data : List Nat) (c p q : Nat) (hcp : c ≤ p) :
    (data.drop c).take (p - c) ++ (data.drop p).take q =
      (data.drop c).take ((p - c) + q) := by
  rw [List.take_add, List.drop_drop]
  have hc : c + (p - c) = p := by omega
  rw [hc]

/-- Saturated takes agree. -/
lemma take_eq_take_of_ge_length (l : List Nat) {a b : Nat}
    (ha : l.length ≤ a) (hb : l.length ≤ b) : l.take a = l.take b := by
  rw [List.take_of_length_le ha, List.take_of_length_le hb]

/-- The behaviour of one bounded `TarFile.read` of `n ≥ 1` bytes on a
handler representing `(data, c)`: it returns exactly the length-`n`
slice of the member at `c` — whatever excess the underlying stream
over-read is held back in the buffer — and the handler afterwards
represents `(data, min (c + n) data.length)`. -/
lemma tarRead_repr {s : TarState} {data : List Nat} {c : Nat} {n : Nat}
    (h : TarRepr s data c) (hn : 1 ≤ n) :
    (TarFile.read s (some (n : Int))).1 = (data.drop c).take n ∧
    TarRepr (TarFile.read s (some (n : Int))).2 data (min (c + n) data.length) := by
  cases s with
  | mk fh buf sz =>
    obtain ⟨p, o, hfh, hcp, hpS, hbuf⟩ := h
    dsimp only at hfh hbuf
    subst hfh; subst hbuf
    have hbl : ((data.drop c).take (p - c)).length = p - c := by
      simp only [List.length_take, List.length_drop]
      omega
    by_cases hA : n ≤ p - c
    · -- the buffer already holds the requested bytes
      have hcond : ((n : Int) ≠ 0 ∧
          ((((data.drop c).take (p - c)).length : Int) ≥ (n : Int))) := by
        rw [hbl]
        exact ⟨Int.natCast_ne_zero.mpr (by omega), by exact_mod_cast hA⟩
      simp only [TarFile.read, if_pos hcond]
      refine ⟨?_, ?_⟩
      · rw [pySliceTo_nat, List.take_take]
        congr 1
        omega
      · have hc' : min (c + n) data.length = c + n := by omega
        rw [hc']
        refine ⟨p, o, rfl, by omega, hpS, ?_⟩
        dsimp only
        rw [pySliceFrom_nat, List.drop_take, List.drop_drop]
        congr 1
        omega
    · -- fall through to the underlying (possibly over-reading) stream
      push_neg at hA
      have hne : (n : Int) ≠ 0 := Int.natCast_ne_zero.mpr (by omega)
      have hcond : ¬ ((n : Int) ≠ 0 ∧
          ((((data.drop c).take (p - c)).length : Int) ≥ (n : Int))) := by
        rw [hbl]
        push_neg
        intro _
        exact_mod_cast hA
      have hm : (n : Int) - ((((data.drop c).take (p - c)).length : Int)) =
          ((n - (p - c) : Nat) : Int) := by
        rw [hbl]
        have : p - c ≤ n := by omega
        push_cast [this]
        omega
      simp only [TarFile.read, if_neg hcond, if_pos hne, hm,
        ByteStream.readOver_nat]
      obtain ⟨e, he⟩ : ∃ e, o.headD 0 = e := ⟨_, rfl⟩
      rw [he]
      obtain ⟨q, hq⟩ : ∃ q, (n - (p - c)) + e = q := ⟨_, rfl⟩
      rw [hq]
      have hcat : (data.drop c).take (p - c) ++ (data.drop p).take q =
          (data.drop c).take ((p - c) + q) := slice_append data c p q hcp
      rw [hcat]
      have hpcq : (p - c) + q = n + e := by omega
      rw [hpcq]
      have hretlen : ((data.drop c).take (n + e)).length =
          min (n + e) (data.length - c) := by
        simp [List.length_take, List.length_drop]
      have hchl : ((data.drop p).take q).length = min q (data.length - p) := by
        simp [List.length_take, List.length_drop]
      by_cases hrl : ((n : Int) ≠ 0 ∧
          ((((data.drop c).take (n + e)).length : Int) > (n : Int)))
      · -- more came back than requested: the excess goes to the buffer
        rw [if_pos hrl]
        have hgt : min (n + e) (data.length - c) > n := by
          have h2 := hrl.2
          rw [hretlen] at h2
          exact_mod_cast h2
        refine ⟨?_, ?_⟩
        · show pySliceTo ((data.drop c).take (n + e)) (n : Int) =
            (data.drop c).take n
          rw [pySliceTo_nat, List.take_take]
          congr 1
          omega
        · have hc' : min (c + n) data.length = c + n := by omega
          rw [hc']
          refine ⟨p + ((data.drop p).take q).length, o.tail, rfl, ?_, ?_, ?_⟩
          · rw [hchl]; omega
          · rw [hchl]; omega
          · dsimp only
            rw [pySliceFrom_nat, List.drop_take, List.drop_drop, hchl]
            rcases le_or_lt q (data.length - p) with hqle | hqgt
            · rw [min_eq_left hqle]
              congr 1
              omega
            · rw [min_eq_right (le_of_lt hqgt)]
              apply take_eq_take_of_ge_length
              · simp only [List.length_drop]
                omega
              · simp only [List.length_drop]
                omega
      · -- everything that came back is returned; the buffer empties
        rw [if_neg hrl]
        push_neg at hrl
        have hle : min (n + e) (data.length - c) ≤ n := by
          have h2 := hrl hne
          rw [hretlen] at h2
          exact_mod_cast h2
        refine ⟨?_, ?_⟩
        · show (data.drop c).take (n + e) = (data.drop c).take n
          by_cases he0 : e = 0
          · simp [he0]
          · apply take_eq_take_of_ge_length <;>
              simp only [List.length_drop] <;> omega
        · refine ⟨p + ((data.drop p).take q).length, o.tail, rfl, ?_, ?_, ?_⟩
          · rw [hchl]; omega
          · rw [hchl]; omega
          · dsimp only
            rw [hchl]
            have hzero : p + min q (data.length - p) -
                min (c + n) data.length = 0 := by omega
            rw [hzero, List.take_zero]

/-- Seeking any open TAR handler to `k` from start discards the
buffer and moves the stream, leaving a handler representing
`(data, k)`. -/
lemma tar_seek_repr (s : TarState) (data : List Nat) (p0 : Nat)
    (o0 : List Nat) (hfh : s.fh = some ⟨data, p0, o0⟩)
    (k : Nat) (hk : k ≤ data.length) :
    ∃ s', TarFile.seek s (k : Int) 0 = .ok s' ∧ TarRepr s' data k := by
  refine ⟨{ s with buffer := [], fh := some ⟨data, k, o0⟩ }, ?_, ?_⟩
  · simp [TarFile.seek, hfh, ByteStream.seekAbs, Int.toNat_natCast]
  · exact ⟨k, o0, rfl, le_refl _, hk, by simp⟩

/-- C1 (amended: the read size `n` is at least 1 — `TarFile.read`
treats a requested size of `0` as an unbounded read, see the
counterexample): for each of the ZIP, GZIP and TAR handlers over a
stream of size `S`, `seek(k, fromStart)` followed by `read(n)`
returns the same bytes as `read(k+n)` on a freshly opened handler
over the same source with the first `k` bytes discarded, for all
`k + n ≤ S`; the fresh TAR handler may even show different over-read
behaviour. -/
theorem seek_read_eq_fresh_read_drop (data : List Nat) (k n : Nat)
    (hkn : k + n ≤ data.length) (hn : 1 ≤ n)
    (zs : ZipState) (zfh : ByteStream)
    (hzfh : zs.fh = some zfh) (hzmem : zs.member = data)
    (gs : GzipState) (gp : Nat) (go : List Nat)
    (hgfh : gs.fh = some ⟨data, gp, go⟩)
    (ts : TarState) (tp : Nat) (to2 : List Nat)
    (htfh : ts.fh = some ⟨data, tp, to2⟩) (oracle2 : List Nat) :
    (∃ s', ZipFile.seek zs (k : Int) 0 = .ok s' ∧
      (ZipFile.read s' (some (n : Int))).1 =
        ((ZipFile.read (ZipFile.openMember data)
          (some ((k + n : Nat) : Int))).1).drop k) ∧
    (∃ s', GzipFile.seek gs (k : Int) 0 = .ok s' ∧
      (GzipFile.read s' (n : Int)).1 =
        ((GzipFile.read (GzipFile.openStream data)
          ((k + n : Nat) : Int)).1).drop k) ∧
    (∃ s', TarFile.seek ts (k : Int) 0 = .ok s' ∧
      (TarFile.read s' (some (n : Int))).1 =
        ((TarFile.read (TarFile.openMember data oracle2)
          (some ((k + n : Nat) : Int))).1).drop k) := by
  have hk : k ≤ data.length := by omega
  have hzfresh : (ZipFile.read (ZipFile.openMember data)
      (some ((k + n : Nat) : Int))).1 = data.take (k + n) := by
    simp only [ZipFile.read, ZipFile.openMember, ByteStream.readEx_nat,
      List.drop_zero]
  have hgfresh : (GzipFile.read (GzipFile.openStream data)
      ((k + n : Nat) : Int)).1 = data.take (k + n) := by
    simp only [GzipFile.read, GzipFile.openStream, ByteStream.readEx_nat,
      List.drop_zero]
  have htfresh : (TarFile.read (TarFile.openMember data oracle2)
      (some ((k + n : Nat) : Int))).1 = data.take (k + n) := by
    have := (tarRead_repr (tarRepr_openMember data oracle2)
      (by omega : 1 ≤ k + n)).1
    simpa using this
  refine ⟨?_, ?_, ?_⟩
  · obtain ⟨z', hz1, hz2⟩ := zip_seek_read zs data zfh hzfh hzmem k n hk
    exact ⟨z', hz1, by rw [hz2, hzfresh, drop_take_slice]⟩
  · obtain ⟨g', hg1, hg2⟩ := gzip_seek_read gs data gp go hgfh k n
    exact ⟨g', hg1, by rw [hg2, hgfresh, drop_take_slice]⟩
  · obtain ⟨t', ht1, ht2⟩ := tar_seek_repr ts data tp to2 htfh k hk
    refine ⟨t', ht1, ?_⟩
    rw [(tarRead_repr ht2 hn).1, htfresh, drop_take_slice]

/-- Closed witness for `seek_read_eq_fresh_read_drop`: the member
`[5, 6, 7, 9]` with `k = 1`, `n = 2`, on handlers whose cursors sit
mid-stream (the TAR one with a non-empty lookahead buffer and an
over-reading stream), against exact fresh handlers. -/
theorem seek_read_eq_fresh_read_drop_witness :
    (∃ s', ZipFile.seek (⟨some ⟨[5, 6, 7, 9], 2, []⟩, 4, 2, [5, 6, 7, 9]⟩ :
        ZipState) ((1 : Nat) : Int) 0 = .ok s' ∧
      (ZipFile.read s' (some ((2 : Nat) : Int))).1 =
        ((ZipFile.read (ZipFile.openMember [5, 6, 7, 9])
          (some ((1 + 2 : Nat) : Int))).1).drop 1) ∧
    (∃ s', GzipFile.seek (⟨some ⟨[5, 6, 7, 9], 3, []⟩, 4⟩ : GzipState)
        ((1 : Nat) : Int) 0 = .ok s' ∧
      (GzipFile.read s' ((2 : Nat) : Int)).1 =
        ((GzipFile.read (GzipFile.openStream [5, 6, 7, 9])
          ((1 + 2 : Nat) : Int)).1).drop 1) ∧
    (∃ s', TarFile.seek (⟨some ⟨[5, 6, 7, 9], 2, [1]⟩, [7], 4⟩ : TarState)
        ((1 : Nat) : Int) 0 = .ok s' ∧
      (TarFile.read s' (some ((2 : Nat) : Int))).1 =
        ((TarFile.read (TarFile.openMember [5, 6, 7, 9] [])
          (some ((1 + 2 : Nat) : Int))).1).drop 1) :=
  seek_read_eq_fresh_read_drop [5, 6, 7, 9] 1 2 (by decide) (by decide)
    ⟨some ⟨[5, 6, 7, 9], 2, []⟩, 4, 2, [5, 6, 7, 9]⟩ ⟨[5, 6, 7, 9], 2, []⟩
    rfl rfl
    ⟨some ⟨[5, 6, 7, 9], 3, []⟩, 4⟩ 3 [] rfl
    ⟨some ⟨[5, 6, 7, 9], 2, [1]⟩, [7], 4⟩ 2 [1] rfl []

/-- C1 counterexample: the claim as stated — quantifying over all
`k, n` with `k + n ≤ S` — fails for the TAR handler at `n = 0`:
Python's `if size:` treats `read(0)` as an unbounded read, so after
`seek(1, fromStart)` on the member `[7, 8]` it returns `[8]`, while
`read(1 + 0)` on a fresh handler with the first byte discarded
returns `[]`. -/
theorem seek_read_counterexample :
    TarFile.seek (TarFile.openMember [7, 8] []) ((1 : Nat) : Int) 0 =
      .ok ⟨some ⟨[7, 8], 1, []⟩, [], 2⟩ ∧
    (TarFile.read (⟨some ⟨[7, 8], 1, []⟩, [], 2⟩ : TarState)
      (some ((0 : Nat) : Int))).1 = [8] ∧
    ((TarFile.read (TarFile.openMember [7, 8] [])
      (some ((1 + 0 : Nat) : Int))).1).drop 1 = [] ∧
    ([8] : List Nat) ≠ [] := by
  refine ⟨rfl, by decide, by decide, by decide⟩

/-- C6: reading an open TAR member handler in two chunks of sizes
`a` then `b` (each at least 1 byte) through the lookahead buffer that
holds back over-read bytes returns exactly the same `a + b` bytes as
a single read of `a + b` bytes from a freshly opened handler on the
same member — whatever over-read amounts the underlying extraction
streams of the two handlers exhibit. -/
theorem tar_two_chunk_read_eq_single (data oracle oracle2 : List Nat)
    (a b : Nat) (ha : 1 ≤ a) (hb : 1 ≤ b) :
    (TarFile.read (TarFile.openMember data oracle) (some (a : Int))).1 ++
      (TarFile.read (TarFile.read (TarFile.openMember data oracle)
        (some (a : Int))).2 (some (b : Int))).1 =
    (TarFile.read (TarFile.openMember data oracle2)
      (some ((a + b : Nat) : Int))).1 := by
  obtain ⟨h1v, h1r⟩ := tarRead_repr (tarRepr_openMember data oracle) ha
  obtain ⟨h2v, _⟩ := tarRead_repr h1r hb
  obtain ⟨h3v, _⟩ := tarRead_repr (tarRepr_openMember data oracle2)
    (by omega : 1 ≤ a + b)
  rw [h1v, h2v, h3v]
  simp only [List.drop_zero, Nat.zero_add]
  rcases le_or_lt a data.length with haS | haS
  · rw [min_eq_left haS, List.take_add]
  · rw [min_eq_right (le_of_lt haS), List.drop_length]
    have h4 : data.take a = data := List.take_of_length_le (le_of_lt haS)
    have h5 : data.take (a + b) = data := List.take_of_length_le (by omega)
    simp [h4, h5]

/-- Closed witness for `tar_two_chunk_read_eq_single`: the spec's
concrete scenario, chunks of 10 then 5 bytes over a 16-byte member,
with the first handler's stream over-reading by 3 bytes. -/
theorem tar_two_chunk_read_eq_single_witness :
    (TarFile.read (TarFile.openMember (List.range 16) [3])
        (some ((10 : Nat) : Int))).1 ++
      (TarFile.read (TarFile.read (TarFile.openMember (List.range 16) [3])
        (some ((10 : Nat) : Int))).2 (some ((5 : Nat) : Int))).1 =
    (TarFile.read (TarFile.openMember (List.range 16) [])
      (some ((10 + 5 : Nat) : Int))).1 :=
  tar_two_chunk_read_eq_single (List.range 16) [3] [] 10 5
    (by decide) (by decide)

/-! ## Theorems: missing archive members (C4) -/

/-- C4 counterexample: opening a missing member is claimed to fail
with an `IOError`; in fact `zipfile.ZipFile.getinfo` (pfile.py line
465) and `tarfile`'s member lookup behind `ft.extractfile` (line 718)
raise `KeyError` for an absent member — the error references the
member path but is not an `IOError` (and so escapes the resolver's
`except IOError` wrapping). -/
theorem missing_member_counterexample :
    ZipFile.Open [("a.txt", [7])] "b.txt" =
      .error (.keyError "There is no item named b.txt in the archive") ∧
    TarFile.Open [⟨"a.txt", true, [7]⟩] "b.txt" [] =
      .error (.keyError "filename b.txt not found") ∧
    (PyErr.keyError "There is no item named b.txt in the archive").isIOError
      = false ∧
    (PyErr.keyError "filename b.txt not found").isIOError = false := by
  refine ⟨rfl, rfl, rfl, rfl⟩

/-- C4 (amended): for every ZIP or TAR descriptor naming a member
path absent from the container, `Open` fails with an error whose
message references the member path — a `KeyError` from the archive
library's member lookup, not an `IOError`; the TAR handler's own
`IOError` arises instead for a member that is present but yields no
extractable stream. -/
theorem missing_member_open_fails
    (zipContainer : List (String × List Nat)) (tarContainer : List TarMember)
    (file_path : String) (oracle : List Nat)
    (hz : zipContainer.find? (fun m => m.1 = file_path) = none)
    (ht : tarContainer.find? (fun m => m.name = file_path) = none) :
    ZipFile.Open zipContainer file_path =
      .error (.keyError
        ("There is no item named " ++ file_path ++ " in the archive")) ∧
    TarFile.Open tarContainer file_path oracle =
      .error (.keyError ("filename " ++ file_path ++ " not found")) ∧
    (∀ m ∈ tarContainer, m.regular = false →
      TarFile.Open [m] m.name oracle =
        .error (.ioError
          ("[TAR] File " ++ m.name ++ " empty or unable to open."))) := by
  refine ⟨?_, ?_, ?_⟩
  · simp only [ZipFile.Open, hz]
  · simp only [TarFile.Open, ht]
  · intro m _ hreg
    simp [TarFile.Open, hreg]

/-- Closed witness for `missing_member_open_fails`: one-member
containers and the absent path `syslog.gz`. -/
theorem missing_member_open_fails_witness :
    ZipFile.Open [("a.txt", [7])] "syslog.gz" =
      .error (.keyError
        ("There is no item named " ++ "syslog.gz" ++ " in the archive")) ∧
    TarFile.Open [⟨"a.txt", true, [7]⟩] "syslog.gz" [] =
      .error (.keyError ("filename " ++ "syslog.gz" ++ " not found")) ∧
    (∀ m ∈ [(⟨"a.txt", true, [7]⟩ : TarMember)], m.regular = false →
      TarFile.Open [m] m.name [] =
        .error (.ioError
          ("[TAR] File " ++ m.name ++ " empty or unable to open."))) :=
  missing_member_open_fails [("a.txt", [7])] [⟨"a.txt", true, [7]⟩]
    "syslog.gz" [] (by decide) (by decide)

end PFile
